import Mathlib

/-!
Therapy Simulator 1987 — verification of the session core

A shallow embedding of the game core of `therpaysim.py.py` (class
`TherapyApp` plus the module-level content tables).  The embedding keeps
the source's names where Lean allows.  Conventions:

* Python ints are `Int`; Python `//` (floor division, always used here
  with a positive divisor) is `Int.ediv`, Python `%` is `Int.emod`.
* The UI layer (tkinter windows, typewriter animation, logging) carries
  no game state and is dropped; every place where the source consults
  `random` (dice rolls, the item-drop roll, `random.choice`) the value
  is an explicit parameter of the embedded function.
* `str.lower` / the `word in text` membership tests of `on_choose` are
  embedded as executable functions on `List Char`.
-/

namespace TherapySim

/-! ## Basic string machinery (Python `str.lower` and `in`) -/

/-- `leadsList w s`: the word `w` occurs at the very front of `s`
(Python `s.startswith(w)` on character lists). -/
def leadsList : List Char → List Char → Bool
  | [], _ => true
  | _ :: _, [] => false
  | c :: cs, d :: ds => (c == d) && leadsList cs ds

/-- `strHas s w`: the word `w` occurs somewhere inside `s`
(Python `w in s` on character lists). -/
def strHas : List Char → List Char → Bool
  | [], w => w.isEmpty
  | c :: t, w => leadsList w (c :: t) || strHas t w

/-- Python `text.lower()` as a character list (labels are ASCII). -/
def lowerChars (s : String) : List Char :=
  s.data.map Char.toLower

/-- Python `any(word in choice_text for word in words)`. -/
def wordIn (lt : List Char) (words : List String) : Bool :=
  words.any (fun w => strHas lt w.data)

/-! ## Data model -/

inductive ClassName
  | Empath
  | Counselor
  | Burnout
deriving DecidableEq

inductive ItemName
  | Coffee
  | Notepad
  | MeditationGuide
  | EnergyDrink
deriving DecidableEq

/-- The four therapist stats (`player["stats"]`). -/
structure Stats where
  patience : Int
  empathy : Int
  insight : Int
  composure : Int
deriving DecidableEq

/-- `player["flags"]`: the keys that `start_game` initialises plus
those later created through `player["flags"].get(key, 0/False)`. -/
structure Flags where
  big_breakthroughs : Int
  melted_down : Bool
  joined_delusion : Bool
  life_changing_breakthroughs : Int
  heated_arguments : Int
  joined_delusions : Int
  defended : Bool
deriving DecidableEq

/-- `player["inventory"]`: counts of the four catalog items. -/
structure Inventory where
  coffee : Int
  notepad : Int
  meditation_guide : Int
  energy_drink : Int
deriving DecidableEq

def Inventory.get (inv : Inventory) : ItemName → Int
  | .Coffee => inv.coffee
  | .Notepad => inv.notepad
  | .MeditationGuide => inv.meditation_guide
  | .EnergyDrink => inv.energy_drink

def Inventory.add (inv : Inventory) (it : ItemName) (d : Int) : Inventory :=
  match it with
  | .Coffee => { inv with coffee := inv.coffee + d }
  | .Notepad => { inv with notepad := inv.notepad + d }
  | .MeditationGuide => { inv with meditation_guide := inv.meditation_guide + d }
  | .EnergyDrink => { inv with energy_drink := inv.energy_drink + d }

/-- `ITEMS[name]["stat"]`: the stat each item restores (+2 on use). -/
def ITEMS_stat : ItemName → Stats → Stats
  | .Coffee, s => { s with patience := min 15 (s.patience + 2) }
  | .Notepad, s => { s with empathy := min 15 (s.empathy + 2) }
  | .MeditationGuide, s => { s with insight := min 15 (s.insight + 2) }
  | .EnergyDrink, s => { s with composure := min 15 (s.composure + 2) }

/-- The `effects` payload of a dialogue choice.  In the source this is
an optional dict; a missing key is `false`/`none` here. -/
structure Effects where
  absurdity : Option Int
  breakthrough : Bool
  start_debate : Bool
  heated_argument : Bool
  joined_delusion : Bool
deriving DecidableEq

/-- The per-client accumulated effects dict
(`self.current_client["effects"]`), read back by `complete_session`. -/
structure AccumEffects where
  breakthrough : Bool
  heated_argument : Bool
  joined_delusion : Bool
deriving DecidableEq

/-- A mutable per-session client instance (the dicts `start_game` and
`advance_client` put into `self.clients`).  The dialogue graph itself
is static content and only its ids matter to the core rules, so the
instance keeps `id`, the two scalars, the current node id, and the
accumulated-effects dict. -/
structure ClientInst where
  id : String
  absurdity : Int
  resistance : Int
  node : String
  acc : AccumEffects
deriving DecidableEq

/-- `location_effects` of a stage (the keys read by the core; the
`all_bonus` key of Private Practice is stored but, as in the source,
never read by any rule). -/
structure LocationEffects where
  empathy_bonus : Int
  insight_bonus : Int
  patience_bonus : Int
  composure_bonus : Int
  all_bonus : Int
  difficulty_modifier : Int
  special_items : List ItemName
deriving DecidableEq

/-- `stage_bonus` of a stage; a missing dict key is `none`. -/
structure StageBonus where
  all_stats : Option Int
  reputation : Option Int
  xp : Option Int
deriving DecidableEq

structure Stage where
  name : String
  clients : List String
  clients_needed : Int
  bonus : StageBonus
  loc : LocationEffects
deriving DecidableEq

/-- The player dict built by `start_game` (name/ability are display-only
strings and are not part of any rule, so they are omitted). -/
structure Player where
  class_ : ClassName
  stats : Stats
  inventory : Inventory
  xp : Int
  reputation : Int
  current_stage_index : Nat
  clients_completed : Int
  flags : Flags
deriving DecidableEq

/-- The whole mutable game state: player, client roster of the current
stage, index of the current client, and — when the debate modal is
open — the pair (player sanity pool, client chaos pool). -/
structure GameState where
  player : Player
  clients : List ClientInst
  idx : Nat
  combat : Option (Int × Int)
deriving DecidableEq

/-! ## Content catalog -/

/-- `CLASS_TEMPLATES[cls]["base"]`. -/
def CLASS_TEMPLATES_base : ClassName → Stats
  | .Empath => ⟨4, 4, 8, 5⟩
  | .Counselor => ⟨5, 8, 3, 6⟩
  | .Burnout => ⟨8, 4, 3, 4⟩

/-- Catalog order of `build_clients_data()` (the order the clients are
appended to the list). -/
def clientCatalogOrder : List String :=
  ["toaster", "mime", "business", "cult", "choir", "influencer",
   "conspiracy", "artist", "parent"]

/-- Base `absurdity` of each catalog client. -/
def clientBaseAbsurdity : String → Int
  | "toaster" => 6
  | "mime" => 5
  | "business" => 6
  | "cult" => 7
  | "choir" => 8
  | "influencer" => 7
  | "conspiracy" => 6
  | "artist" => 6
  | "parent" => 5
  | _ => 0

/-- Base `resistance` of each catalog client. -/
def clientBaseResistance : String → Int
  | "toaster" => 4
  | "mime" => 5
  | "business" => 6
  | "cult" => 5
  | "choir" => 6
  | "influencer" => 5
  | "conspiracy" => 7
  | "artist" => 5
  | "parent" => 4
  | _ => 0

/-- The distinct `effects` payloads that occur on choices of
`build_clients_data()`.  Scanning the catalog, every choice either has
`effects = None` or one of these six dicts; in particular the single
choice carrying `heated_argument` (Toaster Guy, node `escalate`) also
carries `start_debate`.  Field order:
absurdity, breakthrough, start_debate, heated_argument, joined_delusion. -/
def catalogChoiceEffects : List Effects :=
  [⟨some 1, false, false, false, false⟩,
   ⟨some (-1), false, false, false, false⟩,
   ⟨some (-2), false, false, false, false⟩,
   ⟨some (-1), true, false, false, false⟩,
   ⟨some (-2), true, false, false, false⟩,
   ⟨none, false, true, true, false⟩]

def stageCommunityCenter : Stage :=
  ⟨"Community Center", ["toaster", "mime"], 2,
   ⟨none, some 1, none⟩,
   ⟨1, 0, 0, 0, 0, 0, [.Coffee]⟩⟩

def stageCorporateWellness : Stage :=
  ⟨"Corporate Wellness Program", ["business", "choir"], 2,
   ⟨none, some 1, some 2⟩,
   ⟨0, 1, 0, 0, 0, 1, [.EnergyDrink, .Notepad]⟩⟩

def stageCrisisIntervention : Stage :=
  ⟨"Crisis Intervention Center", ["cult", "influencer"], 2,
   ⟨some 1, none, some 1⟩,
   ⟨0, 0, 2, 0, 0, 2, [.MeditationGuide, .Coffee]⟩⟩

def stagePrivatePractice : Stage :=
  ⟨"Private Practice", ["conspiracy", "artist"], 2,
   ⟨some 1, some 3, some 3⟩,
   ⟨0, 0, 0, 0, 1, 0, [.Coffee, .Notepad, .EnergyDrink]⟩⟩

def stateMentalHospital : Stage :=
  ⟨"State Mental Hospital", ["parent"], 1,
   ⟨some 2, none, some 5⟩,
   ⟨0, 0, 0, 2, 0, 3, [.MeditationGuide, .EnergyDrink]⟩⟩

def THERAPY_STAGES : List Stage :=
  [stageCommunityCenter, stageCorporateWellness, stageCrisisIntervention,
   stagePrivatePractice, stateMentalHospital]

/-- `THERAPY_STAGES[i]`; indices are always `≤ 4` in the game, the
default is irrelevant junk. -/
def stageAt (i : Nat) : Stage :=
  THERAPY_STAGES.getD i stageCommunityCenter

/-- The client-roster load of `start_game` / `advance_client`: walk the
catalog in order, keep the ids of the stage, apply the difficulty
modifier with floor 1, node `"start"`, fresh effects dict. -/
def build_roster (stageIdx : Nat) : List ClientInst :=
  let st := stageAt stageIdx
  let dm := st.loc.difficulty_modifier
  (clientCatalogOrder.filter (fun i => st.clients.contains i)).map
    (fun i => ⟨i, max 1 (clientBaseAbsurdity i + dm),
               max 1 (clientBaseResistance i + dm), "start",
               ⟨false, false, false⟩⟩)

/-- `start_game`: class base stats, starter inventory (Coffee 2,
Notepad 1, Meditation Guide 1, Energy Drink 1), xp 0, reputation 10,
stage 0, zeroed flags, stage-0 roster, first client. -/
def start_game (c : ClassName) : GameState :=
  ⟨⟨c, CLASS_TEMPLATES_base c, ⟨2, 1, 1, 1⟩, 0, 10, 0, 0,
    ⟨0, false, false, 0, 0, 0, false⟩⟩,
   build_roster 0, 0, none⟩

/-! ## Choice resolver (`on_choose`, lines 669–823) -/

inductive Category
  | empathetic
  | analytical
  | confrontational
  | patient
  | dismissive
  | noCategory
deriving DecidableEq

def empathWords : List String :=
  ["listen", "validate", "understand", "care", "feel", "sorry", "support"]

def analyticWords : List String :=
  ["ask", "explore", "why", "what", "how", "analyze", "think", "explain"]

def confrontWords : List String :=
  ["challenge", "wrong", "stupid", "ridiculous", "stop", "enough", "reality"]

def patientWords : List String :=
  ["wait", "time", "patient", "slow", "breathe", "calm", "okay", "mm-hmm"]

def dismissWords : List String :=
  ["whatever", "sure", "right", "cool story", "interesting"]

/-- The keyword list of the low-Patience complication at the end of
`on_choose` (note: it is not the union of the analytical and
confrontational buckets). -/
def lowPatWords : List String :=
  ["ask", "explore", "challenge", "what", "why"]

/-- The `if/elif` keyword-bucket dispatch of `on_choose`, first match
wins, over the lowercased label. -/
def classify (lt : List Char) : Category :=
  if wordIn lt empathWords then .empathetic
  else if wordIn lt analyticWords then .analytical
  else if wordIn lt confrontWords then .confrontational
  else if wordIn lt patientWords then .patient
  else if wordIn lt dismissWords then .dismissive
  else .noCategory

/-- Result of the stat part of `on_choose`: new player stats, new
client absurdity, new client resistance. -/
structure ChoiceOut where
  stats : Stats
  absurdity : Int
  resistance : Int
deriving DecidableEq

/-- The body of the matched branch of `on_choose` (lines 682–811):
stat bump, effectiveness-based absurdity reduction, location bonus,
category side effects. -/
def applyCategory (c : Category) (lt : List Char) (p : Stats)
    (a r : Int) (loc : LocationEffects) : ChoiceOut :=
  match c with
  | .empathetic =>
    let e1 := min 15 (p.empathy + 1)
    let red := 1 + Int.ediv (max 1 (e1 - 3)) 2
    let a1 := max 0 (a - red)
    let a2 := if loc.empathy_bonus > 0 then max 0 (a1 - loc.empathy_bonus) else a1
    let comp := if strHas lt "overwhelming".data || decide (a2 > 6)
      then max 1 (p.composure - 1) else p.composure
    ⟨⟨p.patience, e1, p.insight, comp⟩, a2, r⟩
  | .analytical =>
    let i1 := min 15 (p.insight + 1)
    let red := 1 + Int.ediv (max 1 (i1 - 3)) 2
    let a1 := max 0 (a - red)
    let a2 := if loc.insight_bonus > 0 then max 0 (a1 - loc.insight_bonus) else a1
    let comp := if r > 5 then max 1 (p.composure - 1) else p.composure
    ⟨⟨p.patience, p.empathy, i1, comp⟩, a2, r⟩
  | .confrontational =>
    ⟨⟨max 1 (p.patience - 2), p.empathy, p.insight, max 1 (p.composure - 1)⟩, a, r⟩
  | .patient =>
    let p1 := min 15 (p.patience + 1)
    let red := 1 + Int.ediv (max 1 (p1 - 3)) 2
    let a1 := max 0 (a - red)
    let a2 := if loc.patience_bonus > 0 then max 0 (a1 - loc.patience_bonus) else a1
    let comp := if p1 ≥ 8 then min 15 (p.composure + 1) else p.composure
    ⟨⟨p1, p.empathy, p.insight, comp⟩, a2, r⟩
  | .dismissive =>
    let c1 := min 15 (p.composure + 1)
    let red := 1 + Int.ediv (max 1 (c1 - 4)) 3
    let a1 := max 0 (a - red)
    let a2 := if loc.composure_bonus > 0 then max 0 (a1 - loc.composure_bonus) else a1
    ⟨⟨p.patience, max 1 (p.empathy - 1), p.insight, c1⟩, a2, r⟩
  | .noCategory => ⟨p, a, r⟩

/-- The two complication rules at the end of `on_choose` (lines
813–823), applied to whatever the category branch produced: low
Composure (checked on the post-category value) and low Patience with
the five-word list. -/
def applyComplications (lt : List Char) (o : ChoiceOut) : ChoiceOut :=
  let o1 := if o.stats.composure ≤ 2
    then ⟨{ o.stats with composure := max 1 (o.stats.composure - 1) },
          min 12 (o.absurdity + 1), o.resistance⟩
    else o
  if o1.stats.patience ≤ 2 && wordIn lt lowPatWords
    then { o1 with resistance := min 10 (o1.resistance + 1) }
    else o1

/-- The full stat part of `on_choose`: classify the lowercased label,
run the category branch, then the complications. -/
def resolveChoice (text : String) (p : Stats) (a r : Int)
    (loc : LocationEffects) : ChoiceOut :=
  let lt := lowerChars text
  applyComplications lt (applyCategory (classify lt) lt p a r loc)

/-! ## Session / progression controller -/

/-- `level_up` (lines 1012–1028): class-specific stat +1 (capped 15)
plus Composure +1 (capped 15). -/
def level_up (p : Player) : Player :=
  let s := p.stats
  let s1 := match p.class_ with
    | .Empath => { s with insight := min 15 (s.insight + 1) }
    | .Counselor => { s with empathy := min 15 (s.empathy + 1) }
    | .Burnout => { s with patience := min 15 (s.patience + 1) }
  { p with stats := { s1 with composure := min 15 (s1.composure + 1) } }

/-- The rewards part of `complete_session` (lines 940–999): XP tiers,
reputation, flag counters, composure recovery, item find.
`absurdity`/`acc` are the finished client's final absurdity and
accumulated effects dict; `drop` is the outcome of the random
item-find roll (`none` = roll failed). -/
def complete_session_rewards (p : Player) (absurdity : Int) (acc : AccumEffects)
    (drop : Option ItemName) : Player :=
  let bonus_xp : Int :=
    if acc.breakthrough then 3
    else if absurdity ≤ 2 then 2
    else if absurdity ≤ 4 then 1
    else 0
  let rep1 :=
    if acc.breakthrough then p.reputation + 2
    else if absurdity ≤ 2 then p.reputation + 1
    else p.reputation
  let flags1 :=
    if acc.breakthrough then
      { p.flags with life_changing_breakthroughs :=
          p.flags.life_changing_breakthroughs + 1 }
    else if absurdity ≤ 2 then
      { p.flags with big_breakthroughs := p.flags.big_breakthroughs + 1 }
    else p.flags
  let rep2 := if acc.heated_argument then rep1 - 1 else rep1
  let flags2 := if acc.heated_argument
    then { flags1 with heated_arguments := flags1.heated_arguments + 1 }
    else flags1
  let flags3 := if acc.joined_delusion
    then { flags2 with joined_delusions := flags2.joined_delusions + 1 }
    else flags2
  let stats1 := if absurdity ≤ 3
    then { p.stats with composure := min 15 (p.stats.composure + 1) }
    else p.stats
  let xp1 := p.xp + (3 + bonus_xp)
  let inv1 := match drop with
    | some it => p.inventory.add it 1
    | none => p.inventory
  { p with stats := stats1, inventory := inv1, xp := xp1, reputation := rep2, flags := flags3 }

/-- `complete_session` (lines 940–1010): the rewards, then the
every-5-XP `level_up` check on the new cumulative XP. -/
def complete_session (p : Player) (absurdity : Int) (acc : AccumEffects)
    (drop : Option ItemName) : Player :=
  let p1 := complete_session_rewards p absurdity acc drop
  if p1.xp ≥ 5 ∧ p1.xp % 5 = 0 then level_up p1 else p1

/-- `advance_client` (lines 1083–1158): bump the client index and the
completed counter; on reaching the stage's `clients_needed` with a
further stage available, move to it, apply the new stage's
`stage_bonus`, grant its `special_items`, and rebuild the roster. -/
def advance_client (s : GameState) : GameState :=
  let p := s.player
  let completed := p.clients_completed + 1
  let cur := stageAt p.current_stage_index
  if completed ≥ cur.clients_needed ∧ p.current_stage_index < 4 then
    let ni := p.current_stage_index + 1
    let ns := stageAt ni
    let stats1 := match ns.bonus.all_stats with
      | some d => (⟨min 15 (p.stats.patience + d), min 15 (p.stats.empathy + d),
                    min 15 (p.stats.insight + d), min 15 (p.stats.composure + d)⟩ : Stats)
      | none => p.stats
    let rep1 := match ns.bonus.reputation with
      | some d => p.reputation + d
      | none => p.reputation
    let xp1 := match ns.bonus.xp with
      | some d => p.xp + d
      | none => p.xp
    let inv1 := ns.loc.special_items.foldl (fun inv it => inv.add it 1) p.inventory
    ⟨⟨p.class_, stats1, inv1, xp1, rep1, ni, 0, p.flags⟩,
     build_roster ni, 0, s.combat⟩
  else
    ⟨{ p with clients_completed := completed }, s.clients, s.idx + 1, s.combat⟩

/-- The effect-processing part of `continue_after_choice` (lines
861–879): apply an `absurdity` delta (floor 0); on `start_debate` stop
(combat opens, nothing is stored); otherwise store the remaining keys
of this dict as the client's accumulated effects.  Because the
source's `hasattr` guard on a dict is always false, the stored dict is
rebuilt from scratch at every effects-bearing choice rather than
accumulated.  Returns the updated client and whether a debate starts. -/
def apply_choice_effects (cl : ClientInst) (e : Effects) : ClientInst × Bool :=
  let cl1 := match e.absurdity with
    | some d => { cl with absurdity := max 0 (cl.absurdity + d) }
    | none => cl
  if e.start_debate then (cl1, true)
  else ({ cl1 with acc := ⟨e.breakthrough, e.heated_argument, e.joined_delusion⟩ }, false)

/-- `open_debate_modal` entry (lines 1335–1347): player pool is
Composure + 5, client pool is absurdity + resistance. -/
def open_debate (s : GameState) : GameState :=
  match s.clients.get? s.idx with
  | some cl =>
    { s with combat := some (s.player.stats.composure + 5, cl.absurdity + cl.resistance) }
  | none => s

/-- One full user step on a dialogue choice: the stat part of
`on_choose`, then `continue_after_choice` — effects, possible combat
entry, and on a terminal choice (`next = None`) `complete_session`
followed by `advance_client`.  `text` is the choice label, `e` its
effects payload, `nxt` its `next` node, `drop` the item-find roll
inside `complete_session`. -/
def choose_step (s : GameState) (text : String) (e : Option Effects)
    (nxt : Option String) (drop : Option ItemName) : GameState :=
  match s.clients.get? s.idx with
  | none => s
  | some cl =>
    let loc := (stageAt s.player.current_stage_index).loc
    let o := resolveChoice text s.player.stats cl.absurdity cl.resistance loc
    let p1 := { s.player with stats := o.stats }
    let cl1 := { cl with absurdity := o.absurdity, resistance := o.resistance }
    let efRes := match e with
      | some ef => apply_choice_effects cl1 ef
      | none => (cl1, false)
    let cl2 := efRes.1
    if efRes.2 then
      -- start_debate: open the combat modal on the updated state
      ⟨p1, s.clients.set s.idx cl2, s.idx,
       some (p1.stats.composure + 5, cl2.absurdity + cl2.resistance)⟩
    else
      match nxt with
      | none =>
        advance_client ⟨complete_session p1 cl2.absurdity cl2.acc drop,
                        s.clients.set s.idx cl2, s.idx, s.combat⟩
      | some n =>
        ⟨p1, s.clients.set s.idx { cl2 with node := n }, s.idx, s.combat⟩

/-- `apply_item` (lines 1188–1223): needs a positive count; consumes
one use and restores the item's stat by +2 (capped 15). -/
def apply_item (s : GameState) (it : ItemName) : GameState :=
  if s.player.inventory.get it ≤ 0 then s
  else
    { s with player :=
        { s.player with
            inventory := s.player.inventory.add it (-1),
            stats := ITEMS_stat it s.player.stats } }

/-! ## Combat (`open_debate_modal.player_action`, lines 1394–1484) -/

inductive CombatAction
  | empathy
  | insight
  | patience
  | item
deriving DecidableEq

/-- The player half of a combat turn: returns the new client pool, the
new player pool and the updated player.  `dice` is the d6 (d4 for
Patient Listening) roll; `pick` is the item `random.choice` picked
for the Use Item action (`none` when the inventory is empty). -/
def combat_player_phase (p : Player) (act : CombatAction) (dice : Int)
    (pick : Option ItemName) (php chp : Int) : Int × Int × Player :=
  match act with
  | .empathy => (chp - (dice + Int.ediv p.stats.empathy 2), php, p)
  | .insight => (chp - (dice + Int.ediv p.stats.insight 2), php, p)
  | .patience =>
    (chp, min 20 (php + (dice + Int.ediv p.stats.patience 3)),
     { p with flags := { p.flags with defended := true } })
  | .item =>
    match pick with
    | some it =>
      if p.inventory.get it > 0 then
        let p1 := { p with inventory := p.inventory.add it (-1) }
        match it with
        | .Coffee => (chp, min 20 (php + 3), p1)
        | .EnergyDrink => (chp, min 20 (php + 2), p1)
        | _ => (chp, php, p1)
      else (chp, php, p)
    | none => (chp, php, p)

/-- The client half of a combat turn: damage `d6 + absurdity // 3`,
reduced by 2 (floor 1) and cleared when `defended` was set; the player
pool is floored at 0.  Returns the new player pool and player. -/
def combat_attack (p : Player) (cdice absurdity php : Int) : Int × Player :=
  let cdmg0 := cdice + Int.ediv absurdity 3
  if p.flags.defended then
    (max 0 (php - max 1 (cdmg0 - 2)),
     { p with flags := { p.flags with defended := false } })
  else (max 0 (php - cdmg0), p)

/-- One press of a combat action button (`player_action`): player acts;
if the client pool drops to ≤ 0 — victory: Empathy +1, absurdity set
to 0, `complete_session`, `advance_client`.  Otherwise the client
attacks; if the player pool drops to ≤ 0 — defeat: Composure −1
(floor 1), client reset to node `"start"` with absurdity +1, back to
dialogue.  Otherwise combat continues with the new pools. -/
def player_action (s : GameState) (act : CombatAction) (dice : Int)
    (pick : Option ItemName) (cdice : Int) (drop : Option ItemName) : GameState :=
  match s.combat, s.clients.get? s.idx with
  | some pools, some cl =>
    let pp := combat_player_phase s.player act dice pick pools.1 pools.2
    let chp1 := pp.1
    let php1 := pp.2.1
    let p1 := pp.2.2
    if chp1 ≤ 0 then
      let p2 := { p1 with stats :=
        { p1.stats with empathy := min 15 (p1.stats.empathy + 1) } }
      let cl1 := { cl with absurdity := 0 }
      advance_client ⟨complete_session p2 0 cl1.acc drop,
                      s.clients.set s.idx cl1, s.idx, none⟩
    else
      let att := combat_attack p1 cdice cl.absurdity php1
      let php2 := att.1
      let p2 := att.2
      if php2 ≤ 0 then
        let p3 := { p2 with stats :=
          { p2.stats with composure := max 1 (p2.stats.composure - 1) } }
        ⟨p3, s.clients.set s.idx
          { cl with node := "start", absurdity := max 1 (cl.absurdity + 1) },
         s.idx, none⟩
      else ⟨p2, s.clients, s.idx, some (php2, chp1)⟩
  | _, _ => s

/-! ## Ending resolver (`determine_ending`, lines 1573–1657) -/

/-- `determine_ending`: the ordered priority list; we return the
ending's name (the summary/flavor strings are display text). -/
def determine_ending (p : Player) : String :=
  if p.flags.melted_down ∨ p.stats.composure ≤ 0 then "Mental Breakdown"
  else if p.flags.heated_arguments ≥ 3 then "The Provocateur"
  else if p.flags.joined_delusions ≥ 2 then "The Convert"
  else if p.flags.life_changing_breakthroughs ≥ 2 then "The Life Changer"
  else if p.flags.big_breakthroughs ≥ 4 ∧ p.stats.composure ≥ 5 then "The Zen Master"
  else if p.reputation ≥ 16 then "The Celebrity Therapist"
  else if p.xp ≥ 25 then "The Experienced Professional"
  else if p.stats.patience ≥ 15 then "The Unbreakable"
  else if p.stats.empathy ≥ 15 then "The Heart Whisperer"
  else if p.stats.insight ≥ 15 then "The Mind Reader"
  else if p.reputation ≥ 12 then "The Reliable Professional"
  else if p.stats.composure ≥ 8 then "The Steady Hand"
  else if p.reputation ≥ 8 then "The Decent Therapist"
  else if p.reputation ≤ 5 then "The Questionable Professional"
  else "The Quiet Exit"

/-! ## Reachable states

`Step` collects every state mutation a user event can trigger:
resolving a dialogue choice, a combat action button, using an
inventory item, the Debate Client button, and starting a new day.
Dice rolls, the item picks and the `next` node are arbitrary
parameters (an over-approximation of the UI's gating and of the
content graph); the effects payload of a choice is constrained to the
payloads that occur in the shipped catalog. -/

inductive Step : GameState → GameState → Prop
  | choose (s : GameState) (text : String) (e : Option Effects)
      (nxt : Option String) (drop : Option ItemName)
      (hcat : ∀ ef, e = some ef → ef ∈ catalogChoiceEffects) :
      Step s (choose_step s text e nxt drop)
  | combat (s : GameState) (act : CombatAction) (dice : Int)
      (pick : Option ItemName) (cdice : Int) (drop : Option ItemName) :
      Step s (player_action s act dice pick cdice drop)
  | item (s : GameState) (it : ItemName) :
      Step s (apply_item s it)
  | debate (s : GameState) :
      Step s (open_debate s)
  | restart (s : GameState) (c : ClassName) :
      Step s (start_game c)

/-- States reachable from a fresh game of any class. -/
inductive Reachable : GameState → Prop
  | init (c : ClassName) : Reachable (start_game c)
  | step {s t : GameState} : Reachable s → Step s t → Reachable t

/-- The stat clamp invariant: all four stats in `[1, 15]`. -/
def statOK (s : Stats) : Prop :=
  1 ≤ s.patience ∧ s.patience ≤ 15 ∧ 1 ≤ s.empathy ∧ s.empathy ≤ 15 ∧
  1 ≤ s.insight ∧ s.insight ≤ 15 ∧ 1 ≤ s.composure ∧ s.composure ≤ 15

instance statOK_dec : DecidablePred statOK := fun s => by
  unfold statOK
  infer_instance

/-- The global invariant carried through every step: clamped stats,
`melted_down` never set, no heated argument ever recorded (neither as
a player counter nor in a client's accumulated effects), and
reputation at least its starting value 10. -/
def Inv (s : GameState) : Prop :=
  statOK s.player.stats ∧
  s.player.flags.melted_down = false ∧
  s.player.flags.heated_arguments = 0 ∧
  10 ≤ s.player.reputation ∧
  ∀ cl ∈ s.clients, cl.acc.heated_argument = false

/-! ### Preservation lemmas -/

theorem applyCategory_statOK (c : Category) (lt : List Char) (p : Stats)
    (a r : Int) (loc : LocationEffects) (h : statOK p) :
    statOK (applyCategory c lt p a r loc).stats := by
  unfold statOK at h ⊢
  cases c <;> simp only [applyCategory] <;> (try split_ifs) <;> (try dsimp only) <;> omega

theorem applyComplications_statOK (lt : List Char) (o : ChoiceOut)
    (h : statOK o.stats) : statOK (applyComplications lt o).stats := by
  unfold statOK at h ⊢
  unfold applyComplications
  dsimp only
  split_ifs <;> (try dsimp only) <;> omega

theorem resolveChoice_statOK (text : String) (p : Stats) (a r : Int)
    (loc : LocationEffects) (h : statOK p) :
    statOK (resolveChoice text p a r loc).stats :=
  applyComplications_statOK _ _ (applyCategory_statOK _ _ _ _ _ _ h)

theorem level_up_props (p : Player) (h : statOK p.stats) :
    statOK (level_up p).stats ∧ (level_up p).flags = p.flags ∧
    (level_up p).reputation = p.reputation := by
  unfold statOK at h ⊢
  cases hc : p.class_ <;> simp [level_up, hc] <;> omega

theorem complete_session_rewards_props (p : Player) (absurdity : Int)
    (acc : AccumEffects) (drop : Option ItemName)
    (h : statOK p.stats) (hh : acc.heated_argument = false) :
    statOK (complete_session_rewards p absurdity acc drop).stats ∧
    (complete_session_rewards p absurdity acc drop).flags.melted_down = p.flags.melted_down ∧
    (complete_session_rewards p absurdity acc drop).flags.heated_arguments = p.flags.heated_arguments ∧
    p.reputation ≤ (complete_session_rewards p absurdity acc drop).reputation := by
  unfold statOK at h ⊢
  unfold complete_session_rewards
  simp only [hh]
  split_ifs <;> simp_all <;> omega

theorem complete_session_props (p : Player) (absurdity : Int)
    (acc : AccumEffects) (drop : Option ItemName)
    (h : statOK p.stats) (hh : acc.heated_argument = false) :
    statOK (complete_session p absurdity acc drop).stats ∧
    (complete_session p absurdity acc drop).flags.melted_down = p.flags.melted_down ∧
    (complete_session p absurdity acc drop).flags.heated_arguments = p.flags.heated_arguments ∧
    p.reputation ≤ (complete_session p absurdity acc drop).reputation := by
  obtain ⟨h1, h2, h3, h4⟩ := complete_session_rewards_props p absurdity acc drop h hh
  unfold complete_session
  dsimp only
  split_ifs with hx
  · obtain ⟨l1, l2, l3⟩ := level_up_props _ h1
    refine ⟨l1, ?_, ?_, ?_⟩
    · rw [l2]; exact h2
    · rw [l2]; exact h3
    · rw [l3]; exact h4
  · exact ⟨h1, h2, h3, h4⟩


theorem stageAt_all_stats_pos (i : Nat) (d : Int)
    (h : (stageAt i).bonus.all_stats = some d) : 1 ≤ d := by
  rcases i with _ | _ | _ | _ | _ | i <;>
    simp [stageAt, THERAPY_STAGES, stageCommunityCenter, stageCorporateWellness,
      stageCrisisIntervention, stagePrivatePractice, stateMentalHospital] at h <;>
    omega

theorem stageAt_reputation_nonneg (i : Nat) (d : Int)
    (h : (stageAt i).bonus.reputation = some d) : 0 ≤ d := by
  rcases i with _ | _ | _ | _ | _ | i <;>
    simp [stageAt, THERAPY_STAGES, stageCommunityCenter, stageCorporateWellness,
      stageCrisisIntervention, stagePrivatePractice, stateMentalHospital] at h <;>
    omega

theorem build_roster_acc (i : Nat) (cl : ClientInst)
    (h : cl ∈ build_roster i) : cl.acc.heated_argument = false := by
  simp only [build_roster, List.mem_map] at h
  obtain ⟨x, _, rfl⟩ := h
  rfl

theorem advance_client_inv (s : GameState) (h : Inv s) : Inv (advance_client s) := by
  obtain ⟨h1, h2, h3, h4, h5⟩ := h
  unfold advance_client
  dsimp only
  split_ifs with hc
  · refine ⟨?_, h2, h3, ?_, ?_⟩
    · rcases ha : (stageAt (s.player.current_stage_index + 1)).bonus.all_stats with _ | d
      · simpa [ha] using h1
      · have hd := stageAt_all_stats_pos _ _ ha
        unfold statOK at h1 ⊢
        simp only [ha]
        omega
    · rcases hr : (stageAt (s.player.current_stage_index + 1)).bonus.reputation with _ | d
      · simpa [hr] using h4
      · have hd := stageAt_reputation_nonneg _ _ hr
        simp only [hr]
        omega
    · intro cl hcl
      exact build_roster_acc _ _ hcl
  · exact ⟨h1, h2, h3, h4, h5⟩

theorem catalog_heated_needs_debate :
    ∀ ef ∈ catalogChoiceEffects,
      ef.start_debate = false → ef.heated_argument = false := by
  decide

theorem mem_of_set_mem (l : List ClientInst) (i : Nat) (v x : ClientInst)
    (hx : x ∈ l.set i v) : x ∈ l ∨ x = v := by
  rcases List.mem_or_eq_of_mem_set hx with h | h
  · exact Or.inl h
  · exact Or.inr h


theorem session_then_advance_inv (q : Player) (A : Int) (Acc : AccumEffects)
    (drop : Option ItemName) (cls : List ClientInst) (i : Nat)
    (cb : Option (Int × Int))
    (hst : statOK q.stats) (hm : q.flags.melted_down = false)
    (hha : q.flags.heated_arguments = 0) (hr : 10 ≤ q.reputation)
    (hacc : Acc.heated_argument = false)
    (hcls : ∀ x ∈ cls, x.acc.heated_argument = false) :
    Inv (advance_client ⟨complete_session q A Acc drop, cls, i, cb⟩) := by
  apply advance_client_inv
  obtain ⟨c1, c2, c3, c4⟩ := complete_session_props q A Acc drop hst hacc
  exact ⟨c1, by rw [c2]; exact hm, by rw [c3]; exact hha, le_trans hr c4, hcls⟩

theorem choose_step_inv (s : GameState) (text : String) (e : Option Effects)
    (nxt : Option String) (drop : Option ItemName)
    (hcat : ∀ ef, e = some ef → ef ∈ catalogChoiceEffects)
    (h : Inv s) : Inv (choose_step s text e nxt drop) := by
  obtain ⟨h1, h2, h3, h4, h5⟩ := h
  unfold choose_step
  rcases hg : s.clients.get? s.idx with _ | cl
  · exact ⟨h1, h2, h3, h4, h5⟩
  have hclmem : cl ∈ s.clients := List.get?_mem hg
  have hclacc : cl.acc.heated_argument = false := h5 cl hclmem
  have hst : statOK (resolveChoice text s.player.stats cl.absurdity cl.resistance
      (stageAt s.player.current_stage_index).loc).stats :=
    resolveChoice_statOK _ _ _ _ _ h1
  have hsetP : ∀ v : ClientInst, v.acc.heated_argument = false →
      ∀ x ∈ s.clients.set s.idx v, x.acc.heated_argument = false := by
    intro v hv x hx
    rcases mem_of_set_mem _ _ _ _ hx with hx' | hx'
    · exact h5 x hx'
    · rw [hx']; exact hv
  rcases e with _ | ef
  · dsimp only
    rcases nxt with _ | n
    · exact session_then_advance_inv _ _ _ drop _ _ _ hst h2 h3 h4 hclacc (hsetP _ hclacc)
    · exact ⟨hst, h2, h3, h4, hsetP _ hclacc⟩
  · have hef := hcat ef rfl
    rcases hdb : ef.start_debate with _ | _
    · -- no debate: the choice's remaining effect keys are stored
      have hna : ef.heated_argument = false := catalog_heated_needs_debate ef hef hdb
      simp only [apply_choice_effects, hdb, Bool.false_eq_true, if_false]
      rcases nxt with _ | n
      · exact session_then_advance_inv _ _ _ drop _ _ _ hst h2 h3 h4 hna (hsetP _ hna)
      · exact ⟨hst, h2, h3, h4, hsetP _ hna⟩
    · -- start_debate: combat opens, the accumulated dict is untouched
      simp only [apply_choice_effects, hdb, if_true]
      have hacc1 : (match ef.absurdity with
          | some d => { cl with
              absurdity := max 0 ((resolveChoice text s.player.stats cl.absurdity
                cl.resistance (stageAt s.player.current_stage_index).loc).absurdity + d),
              resistance := (resolveChoice text s.player.stats cl.absurdity
                cl.resistance (stageAt s.player.current_stage_index).loc).resistance }
          | none => { cl with
              absurdity := (resolveChoice text s.player.stats cl.absurdity
                cl.resistance (stageAt s.player.current_stage_index).loc).absurdity,
              resistance := (resolveChoice text s.player.stats cl.absurdity
                cl.resistance (stageAt s.player.current_stage_index).loc).resistance }
          : ClientInst).acc.heated_argument = false := by
        rcases ef.absurdity with _ | d <;> exact hclacc
      exact ⟨hst, h2, h3, h4, hsetP _ hacc1⟩

theorem heated_all_set (l : List ClientInst)
    (hl : ∀ x ∈ l, x.acc.heated_argument = false) (i : Nat) (v : ClientInst)
    (hv : v.acc.heated_argument = false) :
    ∀ x ∈ l.set i v, x.acc.heated_argument = false := by
  intro x hx
  rcases mem_of_set_mem _ _ _ _ hx with hx' | hx'
  · exact hl x hx'
  · rw [hx']; exact hv

theorem combat_player_phase_player (p : Player) (act : CombatAction)
    (dice : Int) (pick : Option ItemName) (php chp : Int) :
    (combat_player_phase p act dice pick php chp).2.2.stats = p.stats ∧
    (combat_player_phase p act dice pick php chp).2.2.flags.melted_down = p.flags.melted_down ∧
    (combat_player_phase p act dice pick php chp).2.2.flags.heated_arguments = p.flags.heated_arguments ∧
    (combat_player_phase p act dice pick php chp).2.2.reputation = p.reputation := by
  cases act <;> dsimp only [combat_player_phase]
  · exact ⟨rfl, rfl, rfl, rfl⟩
  · exact ⟨rfl, rfl, rfl, rfl⟩
  · exact ⟨rfl, rfl, rfl, rfl⟩
  · rcases pick with _ | it
    · exact ⟨rfl, rfl, rfl, rfl⟩
    · dsimp only
      split_ifs
      · cases it <;> exact ⟨rfl, rfl, rfl, rfl⟩
      · exact ⟨rfl, rfl, rfl, rfl⟩

theorem combat_attack_player (p : Player) (cdice a php : Int) :
    (combat_attack p cdice a php).2.stats = p.stats ∧
    (combat_attack p cdice a php).2.flags.melted_down = p.flags.melted_down ∧
    (combat_attack p cdice a php).2.flags.heated_arguments = p.flags.heated_arguments ∧
    (combat_attack p cdice a php).2.reputation = p.reputation := by
  unfold combat_attack
  dsimp only
  split_ifs <;> exact ⟨rfl, rfl, rfl, rfl⟩

theorem player_action_inv (s : GameState) (act : CombatAction) (dice : Int)
    (pick : Option ItemName) (cdice : Int) (drop : Option ItemName)
    (h : Inv s) : Inv (player_action s act dice pick cdice drop) := by
  obtain ⟨h1, h2, h3, h4, h5⟩ := h
  unfold player_action
  rcases hcb : s.combat with _ | pools <;>
    rcases hg : s.clients.get? s.idx with _ | cl
  · exact ⟨h1, h2, h3, h4, h5⟩
  · exact ⟨h1, h2, h3, h4, h5⟩
  · exact ⟨h1, h2, h3, h4, h5⟩
  · have hclmem : cl ∈ s.clients := List.get?_mem hg
    have hclacc : cl.acc.heated_argument = false := h5 cl hclmem
    obtain ⟨q1, q2, q3, q4⟩ :=
      combat_player_phase_player s.player act dice pick pools.1 pools.2
    obtain ⟨a1, a2, a3, a4⟩ :=
      combat_attack_player (combat_player_phase s.player act dice pick pools.1 pools.2).2.2
        cdice cl.absurdity (combat_player_phase s.player act dice pick pools.1 pools.2).2.1
    dsimp only
    split_ifs with hv hd
    · -- victory: Empathy +1, absurdity 0, complete the session, advance
      refine session_then_advance_inv _ _ _ drop _ _ _ ?_ ?_ ?_ ?_ ?_ ?_
      · unfold statOK at h1 ⊢
        dsimp only
        rw [q1]
        omega
      · dsimp only; rw [q2]; exact h2
      · dsimp only; rw [q3]; exact h3
      · rw [q4]; exact h4
      · exact hclacc
      · exact heated_all_set _ h5 _ _ hclacc
    · -- defeat: Composure −1 (floor 1), client reset
      refine ⟨?_, ?_, ?_, ?_, ?_⟩
      · unfold statOK at h1 ⊢
        dsimp only
        rw [a1, q1]
        omega
      · dsimp only; rw [a2, q2]; exact h2
      · dsimp only; rw [a3, q3]; exact h3
      · rw [a4, q4]; exact h4
      · exact heated_all_set _ h5 _ _ hclacc
    · -- combat continues with the new pools
      refine ⟨?_, ?_, ?_, ?_, h5⟩
      · dsimp only
        rw [a1, q1]
        exact h1
      · rw [a2, q2]; exact h2
      · rw [a3, q3]; exact h3
      · rw [a4, q4]; exact h4

theorem apply_item_inv (s : GameState) (it : ItemName) (h : Inv s) :
    Inv (apply_item s it) := by
  obtain ⟨h1, h2, h3, h4, h5⟩ := h
  unfold apply_item
  split_ifs with hc
  · exact ⟨h1, h2, h3, h4, h5⟩
  · refine ⟨?_, h2, h3, h4, h5⟩
    unfold statOK at h1 ⊢
    cases it <;> dsimp only [ITEMS_stat] <;> omega

theorem open_debate_inv (s : GameState) (h : Inv s) : Inv (open_debate s) := by
  obtain ⟨h1, h2, h3, h4, h5⟩ := h
  unfold open_debate
  rcases hg : s.clients.get? s.idx with _ | cl
  · exact ⟨h1, h2, h3, h4, h5⟩
  · exact ⟨h1, h2, h3, h4, h5⟩

theorem start_game_inv (c : ClassName) : Inv (start_game c) := by
  cases c <;> exact ⟨by decide, rfl, rfl, by decide, by decide⟩

/-- Every reachable state satisfies the global invariant. -/
theorem reachable_inv {s : GameState} (h : Reachable s) : Inv s := by
  induction h with
  | init c => exact start_game_inv c
  | step _ hst ih =>
    cases hst with
    | choose text e nxt drop hcat => exact choose_step_inv _ text e nxt drop hcat ih
    | combat act dice pick cdice drop => exact player_action_inv _ act dice pick cdice drop ih
    | item it => exact apply_item_inv _ it ih
    | debate => exact open_debate_inv _ ih
    | restart c => exact start_game_inv c

/-! ## Claims -/

/-- C1: in every reachable player state — after any sequence of choice
resolutions, complication rules, item uses, level-ups,
stage-advancement bonuses, and combat rewards or penalties — each of
the four stats Patience, Empathy, Insight, Composure lies in [1, 15];
no mutation leaves a stat below 1 or above 15. -/
theorem c1_stat_clamp_invariant (s : GameState) (h : Reachable s) :
    1 ≤ s.player.stats.patience ∧ s.player.stats.patience ≤ 15 ∧
    1 ≤ s.player.stats.empathy ∧ s.player.stats.empathy ≤ 15 ∧
    1 ≤ s.player.stats.insight ∧ s.player.stats.insight ≤ 15 ∧
    1 ≤ s.player.stats.composure ∧ s.player.stats.composure ≤ 15 :=
  (reachable_inv h).1

theorem c1_stat_clamp_invariant_witness :
    1 ≤ (start_game .Empath).player.stats.patience ∧
    (start_game .Empath).player.stats.patience ≤ 15 ∧
    1 ≤ (start_game .Empath).player.stats.empathy ∧
    (start_game .Empath).player.stats.empathy ≤ 15 ∧
    1 ≤ (start_game .Empath).player.stats.insight ∧
    (start_game .Empath).player.stats.insight ≤ 15 ∧
    1 ≤ (start_game .Empath).player.stats.composure ∧
    (start_game .Empath).player.stats.composure ≤ 15 :=
  c1_stat_clamp_invariant (start_game .Empath) (Reachable.init .Empath)

/-- C3: the ending resolver is an ordered priority list in which
reputation ≥ 16 ("The Celebrity Therapist", rule 6) is tested before
xp ≥ 25 ("The Experienced Professional", rule 7): every final player
state with reputation 16, xp 30, Composure 6 and all narrative flag
counters at zero resolves to "The Celebrity Therapist", whatever the
remaining stats. -/
theorem c3_celebrity_over_experienced (p : Player)
    (hrep : p.reputation = 16) (hxp : p.xp = 30) (hcomp : p.stats.composure = 6)
    (hm : p.flags.melted_down = false)
    (hha : p.flags.heated_arguments = 0) (hjd : p.flags.joined_delusions = 0)
    (hlc : p.flags.life_changing_breakthroughs = 0)
    (hbb : p.flags.big_breakthroughs = 0) :
    determine_ending p = "The Celebrity Therapist" := by
  unfold determine_ending
  rw [if_neg (by simp only [hm, Bool.false_eq_true, false_or]; omega)]
  rw [if_neg (by omega)]
  rw [if_neg (by omega)]
  rw [if_neg (by omega)]
  rw [if_neg (by omega)]
  rw [if_pos (by omega)]

theorem c3_celebrity_over_experienced_witness :
    determine_ending ⟨.Empath, ⟨4, 4, 8, 6⟩, ⟨2, 1, 1, 1⟩, 30, 16, 0, 0,
      ⟨0, false, false, 0, 0, 0, false⟩⟩ = "The Celebrity Therapist" :=
  c3_celebrity_over_experienced _ rfl rfl rfl rfl rfl rfl rfl rfl

theorem ite_ne_both {c : Prop} [Decidable c] {α : Type} {a b t : α}
    (ha : a ≠ t) (hb : b ≠ t) : (if c then a else b) ≠ t := by
  by_cases h : c
  · rw [if_pos h]; exact ha
  · rw [if_neg h]; exact hb

/-- C9: in every reachable state Composure is ≥ 1 and the
`melted_down` flag (initialised False) is never set, so the predicate
of ending rule 1 is false and the "Mental Breakdown" ending is
unreachable. -/
theorem c9_no_mental_breakdown (s : GameState) (h : Reachable s) :
    1 ≤ s.player.stats.composure ∧
    s.player.flags.melted_down = false ∧
    determine_ending s.player ≠ "Mental Breakdown" := by
  obtain ⟨h1, h2, h3, h4, h5⟩ := reachable_inv h
  have hc : 1 ≤ s.player.stats.composure := h1.2.2.2.2.2.2.1
  refine ⟨hc, h2, ?_⟩
  have hnc : ¬(s.player.flags.melted_down = true ∨ s.player.stats.composure ≤ 0) := by
    simp only [h2, Bool.false_eq_true, false_or, not_le]
    omega
  unfold determine_ending
  rw [if_neg hnc]
  exact ite_ne_both (by decide) (ite_ne_both (by decide) (ite_ne_both (by decide)
    (ite_ne_both (by decide) (ite_ne_both (by decide) (ite_ne_both (by decide)
    (ite_ne_both (by decide) (ite_ne_both (by decide) (ite_ne_both (by decide)
    (ite_ne_both (by decide) (ite_ne_both (by decide) (ite_ne_both (by decide)
    (ite_ne_both (by decide) (by decide)))))))))))))

theorem c9_no_mental_breakdown_witness :
    1 ≤ (start_game .Burnout).player.stats.composure ∧
    (start_game .Burnout).player.flags.melted_down = false ∧
    determine_ending (start_game .Burnout).player ≠ "Mental Breakdown" :=
  c9_no_mental_breakdown (start_game .Burnout) (Reachable.init .Burnout)

/-- C10: effect processing returns on `start_debate` before storing
the choice's other effect flags, and in the shipped catalog the only
`heated_argument` choice also sets `start_debate`; hence
`complete_session` never increments the heatedArguments counter and
reputation never drops below its starting value 10 in any reachable
state. -/
theorem c10_reputation_never_below_start (s : GameState) (h : Reachable s) :
    s.player.flags.heated_arguments = 0 ∧ 10 ≤ s.player.reputation :=
  ⟨(reachable_inv h).2.2.1, (reachable_inv h).2.2.2.1⟩

theorem c10_reputation_never_below_start_witness :
    (start_game .Counselor).player.flags.heated_arguments = 0 ∧
    10 ≤ (start_game .Counselor).player.reputation :=
  c10_reputation_never_below_start (start_game .Counselor) (Reachable.init .Counselor)

/-- C2: evidence of the accumulation bug in `continue_after_choice`.
The guard `if not hasattr(self.current_client, "effects")` tests an
attribute of a dict, which a dict never has, so the accumulated
effects dict is rebuilt from scratch at every effects-bearing choice
instead of being accumulated.  Concretely: a session whose first
choice carries `breakthrough` (payload `{"absurdity": -1,
"breakthrough": True}`) followed by a second, terminal choice with
payload `{"absurdity": -1}` ends with no breakthrough recorded, and
`complete_session` then awards only the absurdity-tier bonus (final
absurdity 4: +1 XP, no reputation, no lifeChangingBreakthroughs) —
the claim says the breakthrough branch (+3 XP, +2 reputation) fires
whenever any choice of the session carried the flag. -/
theorem c2_breakthrough_flag_lost :
    (apply_choice_effects ⟨"toaster", 6, 4, "deeper", ⟨false, false, false⟩⟩
       ⟨some (-1), true, false, false, false⟩).1.acc.breakthrough = true ∧
    (apply_choice_effects
       (apply_choice_effects ⟨"toaster", 6, 4, "deeper", ⟨false, false, false⟩⟩
          ⟨some (-1), true, false, false, false⟩).1
       ⟨some (-1), false, false, false, false⟩).1.acc.breakthrough = false ∧
    (complete_session
       ⟨.Empath, ⟨4, 4, 8, 5⟩, ⟨2, 1, 1, 1⟩, 0, 10, 0, 0, ⟨0, false, false, 0, 0, 0, false⟩⟩
       (apply_choice_effects
          (apply_choice_effects ⟨"toaster", 6, 4, "deeper", ⟨false, false, false⟩⟩
             ⟨some (-1), true, false, false, false⟩).1
          ⟨some (-1), false, false, false, false⟩).1.absurdity
       (apply_choice_effects
          (apply_choice_effects ⟨"toaster", 6, 4, "deeper", ⟨false, false, false⟩⟩
             ⟨some (-1), true, false, false, false⟩).1
          ⟨some (-1), false, false, false, false⟩).1.acc
       none).xp = 4 ∧
    (complete_session
       ⟨.Empath, ⟨4, 4, 8, 5⟩, ⟨2, 1, 1, 1⟩, 0, 10, 0, 0, ⟨0, false, false, 0, 0, 0, false⟩⟩
       (apply_choice_effects
          (apply_choice_effects ⟨"toaster", 6, 4, "deeper", ⟨false, false, false⟩⟩
             ⟨some (-1), true, false, false, false⟩).1
          ⟨some (-1), false, false, false, false⟩).1.absurdity
       (apply_choice_effects
          (apply_choice_effects ⟨"toaster", 6, 4, "deeper", ⟨false, false, false⟩⟩
             ⟨some (-1), true, false, false, false⟩).1
          ⟨some (-1), false, false, false, false⟩).1.acc
       none).reputation = 10 ∧
    (complete_session
       ⟨.Empath, ⟨4, 4, 8, 5⟩, ⟨2, 1, 1, 1⟩, 0, 10, 0, 0, ⟨0, false, false, 0, 0, 0, false⟩⟩
       (apply_choice_effects
          (apply_choice_effects ⟨"toaster", 6, 4, "deeper", ⟨false, false, false⟩⟩
             ⟨some (-1), true, false, false, false⟩).1
          ⟨some (-1), false, false, false, false⟩).1.absurdity
       (apply_choice_effects
          (apply_choice_effects ⟨"toaster", 6, 4, "deeper", ⟨false, false, false⟩⟩
             ⟨some (-1), true, false, false, false⟩).1
          ⟨some (-1), false, false, false, false⟩).1.acc
       none).flags.life_changing_breakthroughs = 0 := by
  decide

/-- C4 counterexample: a Dismissive choice ("Sure") resolved at
Composure 2 ends with Composure 3, not 1 — the dismissive category
raises Composure to 3 first, so the low-Composure complication
(tested on the post-category value) does not fire, and the absurdity
stays at the category value 5 instead of rising to 6.  This refutes
"whatever the choice's category". -/
theorem c4_counterexample :
    classify (lowerChars "Sure") = Category.dismissive ∧
    (resolveChoice "Sure" ⟨4, 4, 8, 2⟩ 6 4 stageCommunityCenter.loc).stats.composure = 3 ∧
    (resolveChoice "Sure" ⟨4, 4, 8, 2⟩ 6 4 stageCommunityCenter.loc).absurdity = 5 ∧
    (applyCategory (classify (lowerChars "Sure")) (lowerChars "Sure")
       ⟨4, 4, 8, 2⟩ 6 4 stageCommunityCenter.loc).absurdity = 5 := by
  decide

theorem ite_le {c : Prop} [inst : Decidable c] {x y z : Int}
    (hx : x ≤ z) (hy : y ≤ z) : (if c then x else y) ≤ z := by
  by_cases h : c
  · rw [if_pos h]; exact hx
  · rw [if_neg h]; exact hy

/-- When the category rule left Composure ≤ 2 the complication fires:
Composure is forced to 1 and absurdity rises by 1 (capped at 12). -/
theorem applyComplications_low (lt : List Char) (o : ChoiceOut)
    (h : o.stats.composure ≤ 2) :
    (applyComplications lt o).stats.composure = 1 ∧
    (applyComplications lt o).absurdity = min 12 (o.absurdity + 1) := by
  unfold applyComplications
  dsimp only
  rw [if_pos h]
  split <;> constructor <;> (try dsimp only) <;> omega

/-- When the category rule left Composure > 2 the low-Composure
complication is skipped: stats and absurdity pass through (only
resistance may still change). -/
theorem applyComplications_high (lt : List Char) (o : ChoiceOut)
    (h : ¬ o.stats.composure ≤ 2) :
    (applyComplications lt o).stats = o.stats ∧
    (applyComplications lt o).absurdity = o.absurdity := by
  unfold applyComplications
  dsimp only
  rw [if_neg h]
  split <;> exact ⟨rfl, rfl⟩

/-- C4 (amended): the low-Composure complication tests Composure
after the category rule.  For every choice resolved at Composure 2
whose category rule cannot raise Composure — Empathetic, Analytical,
Confrontational, or unclassified — the post-resolution Composure is 1
and the absurdity ends 1 higher (capped at 12) than the category rule
alone produced, i.e. the complication is applied after the category
rule, not instead of it.  (Dismissive choices, and Patient choices
reaching Patience ≥ 8, raise Composure to 3 first and the
complication does not fire.) -/
theorem c4_low_composure_after_category (text : String) (p : Stats) (a r : Int)
    (loc : LocationEffects) (hc : p.composure = 2)
    (hcat : classify (lowerChars text) = Category.empathetic ∨
            classify (lowerChars text) = Category.analytical ∨
            classify (lowerChars text) = Category.confrontational ∨
            classify (lowerChars text) = Category.noCategory) :
    (resolveChoice text p a r loc).stats.composure = 1 ∧
    (resolveChoice text p a r loc).absurdity =
      min 12 ((applyCategory (classify (lowerChars text)) (lowerChars text)
        p a r loc).absurdity + 1) := by
  have hcomp2 : (applyCategory (classify (lowerChars text)) (lowerChars text)
      p a r loc).stats.composure ≤ 2 := by
    rcases hcat with h | h | h | h <;> rw [h] <;> dsimp only [applyCategory] <;>
      first
        | omega
        | exact ite_le (by omega) (by omega)
  unfold resolveChoice
  exact applyComplications_low (lowerChars text) _ hcomp2

theorem c4_low_composure_after_category_witness :
    classify (lowerChars "I care") = Category.empathetic ∧
    ((resolveChoice "I care" ⟨4, 4, 8, 2⟩ 6 4 stageCommunityCenter.loc).stats.composure = 1 ∧
     (resolveChoice "I care" ⟨4, 4, 8, 2⟩ 6 4 stageCommunityCenter.loc).absurdity =
       min 12 ((applyCategory (classify (lowerChars "I care")) (lowerChars "I care")
         ⟨4, 4, 8, 2⟩ 6 4 stageCommunityCenter.loc).absurdity + 1)) :=
  ⟨by decide, c4_low_composure_after_category "I care" ⟨4, 4, 8, 2⟩ 6 4
    stageCommunityCenter.loc rfl (Or.inl (by decide))⟩

/-- C5 counterexample: "Explain" falls in the Analytical keyword
bucket (keyword "explain"), yet with Patience 2 the resistance
increment does not fire: the complication's own keyword list
["ask", "explore", "challenge", "what", "why"] does not contain
"explain" (nor "how", "analyze", "think").  This refutes "for every
label falling in those two keyword buckets the increment fires under
low Patience". -/
theorem c5_counterexample :
    classify (lowerChars "Explain") = Category.analytical ∧
    (resolveChoice "Explain" ⟨2, 4, 8, 5⟩ 6 4 stageCommunityCenter.loc).stats.patience = 2 ∧
    (resolveChoice "Explain" ⟨2, 4, 8, 5⟩ 6 4 stageCommunityCenter.loc).resistance = 4 := by
  decide

/-- The category branch of `on_choose` never touches client
resistance. -/
theorem applyCategory_resistance (c : Category) (lt : List Char) (p : Stats)
    (a r : Int) (loc : LocationEffects) :
    (applyCategory c lt p a r loc).resistance = r := by
  cases c <;> rfl

/-- C5 (amended): the resistance increment is governed not by the
keyword-bucket classification of the label but by the low-Patience
complication's own five-word list: the client's resistance becomes
min 10 (r + 1) exactly when post-category Patience is ≤ 2 and the
lowercased label contains one of ask / explore / challenge / what /
why, and stays r otherwise — whichever bucket (or none) the label
classified into. -/
theorem c5_resistance_increment_rule (text : String) (p : Stats) (a r : Int)
    (loc : LocationEffects) :
    (resolveChoice text p a r loc).resistance =
      if (applyCategory (classify (lowerChars text)) (lowerChars text)
            p a r loc).stats.patience ≤ 2
          ∧ wordIn (lowerChars text) lowPatWords = true
        then min 10 (r + 1) else r := by
  unfold resolveChoice
  have hr : (applyCategory (classify (lowerChars text)) (lowerChars text)
      p a r loc).resistance = r := applyCategory_resistance _ _ _ _ _ _
  set o := applyCategory (classify (lowerChars text)) (lowerChars text) p a r loc with ho
  unfold applyComplications
  dsimp only
  by_cases h1 : o.stats.composure ≤ 2 <;>
    simp only [h1, if_true, if_false, ite_true, ite_false] <;> (try dsimp only) <;>
    by_cases h2 : o.stats.patience ≤ 2 <;>
      by_cases h3 : wordIn (lowerChars text) lowPatWords = true <;>
        simp only [h2, h3, decide_True, decide_False, Bool.true_and, Bool.false_and,
          Bool.and_true, Bool.and_false, if_true, if_false, ite_true, ite_false,
          true_and, false_and, and_true, and_false] <;>
      (try rw [← ho]) <;> (try rw [hr]) <;> (try rfl) <;> simp [hr]

/-- C6: a fresh Empath (Patience 4, Empathy 4, Insight 8, Composure
5) resolving one Analytical-classified choice (e.g. one containing
"ask") ends with Insight 9 and client absurdity reduced by
1 + floor(max(1, 9 − 3) / 2) = 4 (floored at 0), before any location
insight bonus (hypothesis: the location has no insight bonus, as at
the starting Community Center). -/
theorem c6_empath_analytical_choice (text : String) (a r : Int)
    (loc : LocationEffects)
    (hcat : classify (lowerChars text) = Category.analytical)
    (hloc : loc.insight_bonus ≤ 0) :
    (resolveChoice text (CLASS_TEMPLATES_base .Empath) a r loc).stats.insight = 9 ∧
    (resolveChoice text (CLASS_TEMPLATES_base .Empath) a r loc).absurdity =
      max 0 (a - 4) := by
  unfold resolveChoice
  dsimp only
  rw [hcat]
  have hno : ¬ (applyCategory Category.analytical (lowerChars text)
      (CLASS_TEMPLATES_base .Empath) a r loc).stats.composure ≤ 2 := by
    dsimp only [applyCategory, CLASS_TEMPLATES_base]
    by_cases hr5 : r > 5 <;>
      simp only [hr5, if_true, if_false, ite_true, ite_false] <;> omega
  obtain ⟨hs, ha2⟩ := applyComplications_high (lowerChars text) _ hno
  constructor
  · rw [hs]
    dsimp only [applyCategory, CLASS_TEMPLATES_base]
    omega
  · rw [ha2]
    dsimp only [applyCategory, CLASS_TEMPLATES_base]
    rw [if_neg (show ¬ loc.insight_bonus > 0 by omega)]
    have hX : Int.ediv (max 1 (min 15 ((8 : Int) + 1) - 3)) 2 = 3 := by decide
    omega

theorem c6_empath_analytical_choice_witness :
    classify (lowerChars "ask") = Category.analytical ∧
    stageCommunityCenter.loc.insight_bonus ≤ 0 ∧
    ((resolveChoice "ask" (CLASS_TEMPLATES_base .Empath) 6 4 stageCommunityCenter.loc).stats.insight = 9 ∧
     (resolveChoice "ask" (CLASS_TEMPLATES_base .Empath) 6 4 stageCommunityCenter.loc).absurdity =
       max 0 (6 - 4)) :=
  ⟨by decide, by decide,
   c6_empath_analytical_choice "ask" 6 4 stageCommunityCenter.loc (by decide) (by decide)⟩

theorem inv_get_add (inv : Inventory) (x it : ItemName) (d : Int) :
    (inv.add x d).get it = inv.get it + (if it = x then d else 0) := by
  cases x <;> cases it <;> simp [Inventory.add, Inventory.get]

theorem inv_fold_count (items : List ItemName) (inv : Inventory) (it : ItemName) :
    (items.foldl (fun i j => i.add j 1) inv).get it =
      inv.get it + (items.count it : Int) := by
  induction items generalizing inv with
  | nil => simp
  | cons x xs ih =>
    rw [List.foldl_cons, ih, inv_get_add, List.count_cons]
    by_cases hxe : it = x
    · simp [hxe]
      omega
    · simp [hxe]
      exact fun h => hxe h.symm

/-- C7: when `advance_client` raises the completed counter to the
stage's `clients_needed` and a further stage exists, the transition
resets the counter to 0, adds the stage bonus's `all_stats` delta to
each of the four stats with each independently clamped at 15 (stats
untouched when the bonus has no `all_stats` key), applies the
optional reputation and xp deltas, adds each of the new location's
special items to inventory (+1 count per occurrence), and rebuilds
the client roster from the catalog with the new stage's difficulty
modifier. -/
theorem c7_stage_transition (s : GameState)
    (h1 : s.player.clients_completed + 1 ≥
      (stageAt s.player.current_stage_index).clients_needed)
    (h2 : s.player.current_stage_index < 4) :
    (advance_client s).player.clients_completed = 0 ∧
    (advance_client s).player.current_stage_index = s.player.current_stage_index + 1 ∧
    (∀ d : Int, (stageAt (s.player.current_stage_index + 1)).bonus.all_stats = some d →
      (advance_client s).player.stats.patience = min 15 (s.player.stats.patience + d) ∧
      (advance_client s).player.stats.empathy = min 15 (s.player.stats.empathy + d) ∧
      (advance_client s).player.stats.insight = min 15 (s.player.stats.insight + d) ∧
      (advance_client s).player.stats.composure = min 15 (s.player.stats.composure + d)) ∧
    ((stageAt (s.player.current_stage_index + 1)).bonus.all_stats = none →
      (advance_client s).player.stats = s.player.stats) ∧
    (advance_client s).player.reputation =
      s.player.reputation +
        ((stageAt (s.player.current_stage_index + 1)).bonus.reputation.getD 0) ∧
    (advance_client s).player.xp =
      s.player.xp + ((stageAt (s.player.current_stage_index + 1)).bonus.xp.getD 0) ∧
    (∀ it : ItemName, (advance_client s).player.inventory.get it =
      s.player.inventory.get it +
        ((stageAt (s.player.current_stage_index + 1)).loc.special_items.count it : Int)) ∧
    (advance_client s).clients = build_roster (s.player.current_stage_index + 1) ∧
    (advance_client s).idx = 0 := by
  unfold advance_client
  dsimp only
  rw [if_pos ⟨h1, h2⟩]
  refine ⟨rfl, rfl, ?_, ?_, ?_, ?_, ?_, rfl, rfl⟩
  · intro d hd
    simp [hd]
  · intro hn
    simp only [hn]
  · rcases hrb : (stageAt (s.player.current_stage_index + 1)).bonus.reputation with _ | d <;>
      simp [hrb]
  · rcases hxb : (stageAt (s.player.current_stage_index + 1)).bonus.xp with _ | d <;>
      simp [hxb]
  · intro it
    exact inv_fold_count _ _ _

/-- A state about to finish the Community Center: one client already
completed of the two needed. -/
def c7_witness_state : GameState :=
  ⟨⟨.Empath, ⟨4, 4, 8, 5⟩, ⟨2, 1, 1, 1⟩, 0, 10, 0, 1,
    ⟨0, false, false, 0, 0, 0, false⟩⟩, build_roster 0, 1, none⟩

theorem c7_stage_transition_witness :
    c7_witness_state.player.clients_completed + 1 ≥
      (stageAt c7_witness_state.player.current_stage_index).clients_needed ∧
    c7_witness_state.player.current_stage_index < 4 ∧
    ((advance_client c7_witness_state).player.clients_completed = 0 ∧
     (advance_client c7_witness_state).player.current_stage_index =
       c7_witness_state.player.current_stage_index + 1 ∧
     (∀ d : Int, (stageAt (c7_witness_state.player.current_stage_index + 1)).bonus.all_stats = some d →
       (advance_client c7_witness_state).player.stats.patience =
         min 15 (c7_witness_state.player.stats.patience + d) ∧
       (advance_client c7_witness_state).player.stats.empathy =
         min 15 (c7_witness_state.player.stats.empathy + d) ∧
       (advance_client c7_witness_state).player.stats.insight =
         min 15 (c7_witness_state.player.stats.insight + d) ∧
       (advance_client c7_witness_state).player.stats.composure =
         min 15 (c7_witness_state.player.stats.composure + d)) ∧
     ((stageAt (c7_witness_state.player.current_stage_index + 1)).bonus.all_stats = none →
       (advance_client c7_witness_state).player.stats = c7_witness_state.player.stats) ∧
     (advance_client c7_witness_state).player.reputation =
       c7_witness_state.player.reputation +
         ((stageAt (c7_witness_state.player.current_stage_index + 1)).bonus.reputation.getD 0) ∧
     (advance_client c7_witness_state).player.xp =
       c7_witness_state.player.xp +
         ((stageAt (c7_witness_state.player.current_stage_index + 1)).bonus.xp.getD 0) ∧
     (∀ it : ItemName, (advance_client c7_witness_state).player.inventory.get it =
       c7_witness_state.player.inventory.get it +
         ((stageAt (c7_witness_state.player.current_stage_index + 1)).loc.special_items.count it : Int)) ∧
     (advance_client c7_witness_state).clients =
       build_roster (c7_witness_state.player.current_stage_index + 1) ∧
     (advance_client c7_witness_state).idx = 0) :=
  ⟨by decide, by decide, c7_stage_transition c7_witness_state (by decide) (by decide)⟩

theorem get?_some_lt {α : Type} (l : List α) (i : Nat) (v : α)
    (h : l.get? i = some v) : i < l.length := by
  induction l generalizing i with
  | nil => simp at h
  | cons x xs ih =>
    cases i with
    | zero => simp
    | succ n =>
      have := ih n (by simpa using h)
      simpa using this

theorem get?_set_self {α : Type} (l : List α) (i : Nat) (v : α)
    (h : i < l.length) : (l.set i v).get? i = some v := by
  induction l generalizing i with
  | nil => simp at h
  | cons x xs ih =>
    cases i with
    | zero => rfl
    | succ n =>
      have := ih n (by simpa using h)
      simpa using this

/-- C8: the combat sanity pool opens at Composure + 5 (first
conjunct, about `open_debate`); and whenever the pool reaches ≤ 0
after a client attack (and the client pool was still positive after
the player's action) the outcome is defeat: combat closes back to
dialogue, Composure decreases by 1 floored at 1, the client index is
unchanged, and the same client instance sits there reset to node
"start" with its absurdity increased by 1 — the client is never
permanently failed. -/
theorem c8_combat_defeat (s : GameState) (cl : ClientInst) (php chp : Int)
    (act : CombatAction) (dice : Int) (pick : Option ItemName) (cdice : Int)
    (drop : Option ItemName)
    (hcb : s.combat = some (php, chp))
    (hcl : s.clients.get? s.idx = some cl)
    (ha : 0 ≤ cl.absurdity)
    (hnv : ¬ (combat_player_phase s.player act dice pick php chp).1 ≤ 0)
    (hdef : (combat_attack (combat_player_phase s.player act dice pick php chp).2.2 cdice
        cl.absurdity (combat_player_phase s.player act dice pick php chp).2.1).1 ≤ 0) :
    (∀ t : GameState, ∀ c : ClientInst, t.clients.get? t.idx = some c →
      (open_debate t).combat =
        some (t.player.stats.composure + 5, c.absurdity + c.resistance)) ∧
    (player_action s act dice pick cdice drop).combat = none ∧
    (player_action s act dice pick cdice drop).player.stats.composure =
      max 1 (s.player.stats.composure - 1) ∧
    (player_action s act dice pick cdice drop).idx = s.idx ∧
    (player_action s act dice pick cdice drop).clients.get? s.idx =
      some { cl with node := "start", absurdity := cl.absurdity + 1 } := by
  obtain ⟨q1, q2, q3, q4⟩ := combat_player_phase_player s.player act dice pick php chp
  obtain ⟨a1, a2, a3, a4⟩ :=
    combat_attack_player (combat_player_phase s.player act dice pick php chp).2.2 cdice
      cl.absurdity (combat_player_phase s.player act dice pick php chp).2.1
  have hlen : s.idx < s.clients.length := get?_some_lt _ _ _ hcl
  have hmax : max 1 (cl.absurdity + 1) = cl.absurdity + 1 := by omega
  have hmain : player_action s act dice pick cdice drop =
      ⟨{ (combat_attack (combat_player_phase s.player act dice pick php chp).2.2 cdice
            cl.absurdity (combat_player_phase s.player act dice pick php chp).2.1).2 with
          stats := { (combat_attack (combat_player_phase s.player act dice pick php chp).2.2 cdice
              cl.absurdity (combat_player_phase s.player act dice pick php chp).2.1).2.stats with
            composure := max 1 ((combat_attack (combat_player_phase s.player act dice pick php chp).2.2
              cdice cl.absurdity (combat_player_phase s.player act dice pick php chp).2.1).2.stats.composure - 1) } },
       s.clients.set s.idx { cl with node := "start", absurdity := max 1 (cl.absurdity + 1) },
       s.idx, none⟩ := by
    unfold player_action
    rw [hcb, hcl]
    dsimp only
    rw [if_neg hnv, if_pos hdef]
  refine ⟨?_, ?_, ?_, ?_, ?_⟩
  · intro t c hc
    unfold open_debate
    rw [hc]
  · rw [hmain]
  · rw [hmain]
    dsimp only
    rw [a1, q1]
  · rw [hmain]
  · rw [hmain]
    dsimp only
    rw [hmax]
    exact get?_set_self _ _ _ hlen

/-- A combat state one hit from defeat: sanity pool 1, client pool 5,
Toaster Guy at the Community Center. -/
def c8_witness_state : GameState :=
  ⟨⟨.Empath, ⟨4, 4, 8, 5⟩, ⟨2, 1, 1, 1⟩, 0, 10, 0, 0,
    ⟨0, false, false, 0, 0, 0, false⟩⟩, build_roster 0, 0, some (1, 5)⟩

def c8_witness_client : ClientInst :=
  ⟨"toaster", 6, 4, "start", ⟨false, false, false⟩⟩

theorem c8_combat_defeat_witness :
    c8_witness_state.combat = some (1, 5) ∧
    c8_witness_state.clients.get? c8_witness_state.idx = some c8_witness_client ∧
    (0 : Int) ≤ c8_witness_client.absurdity ∧
    ((∀ t : GameState, ∀ c : ClientInst, t.clients.get? t.idx = some c →
        (open_debate t).combat =
          some (t.player.stats.composure + 5, c.absurdity + c.resistance)) ∧
     (player_action c8_witness_state .empathy 1 none 6 none).combat = none ∧
     (player_action c8_witness_state .empathy 1 none 6 none).player.stats.composure =
       max 1 (c8_witness_state.player.stats.composure - 1) ∧
     (player_action c8_witness_state .empathy 1 none 6 none).idx = c8_witness_state.idx ∧
     (player_action c8_witness_state .empathy 1 none 6 none).clients.get?
         c8_witness_state.idx =
       some { c8_witness_client with node := "start", absurdity := c8_witness_client.absurdity + 1 }) :=
  ⟨rfl, by decide, by decide,
   c8_combat_defeat c8_witness_state c8_witness_client 1 5 .empathy 1 none 6 none
     rfl (by decide) (by decide) (by decide) (by decide)⟩

end TherapySim
